import Mathlib

/-
Verification development for the rest-api-client repository.

The development shallowly embeds the two implementations of the library:
  * the modular tree (src/make.ts, src/url.ts, src/headers.ts, src/input.ts,
    src/output.ts, src/error.ts, src/client.ts) under namespace `Modular`,
  * the legacy monolithic module (RestApiClient.ts) under namespace `Legacy`.

Dynamic values (parameters, JSON bodies, decoded values, custom error values)
are uniformly modelled by a small `Json` type; Effect-typed computations are
modelled by `Except` on their run-time outcome; the engine additionally
reports, for each route invocation, how often each author-supplied custom
function was invoked and which request (if any) was dispatched, so that
"never invoked" / "exactly once" properties are directly statable.
-/

namespace RestApiClient

/-- A small model of JSON values (and, generally, of the dynamic values the
library moves around: call-time parameters, decoded bodies, error values). -/
inductive Json where
  | null : Json
  | bool (b : Bool) : Json
  | num (n : Int) : Json
  | str (s : String) : Json
deriving DecidableEq

/-- Header sets, as in @effect/platform Headers: a record keyed by
lowercased header names.  Modelled as an association list whose keys are
stored lowercased (the library's `Headers.Headers` brand invariant). -/
abbrev HeaderSet : Type := List (String × String)

/-- Headers.empty. -/
def HeaderSet.empty : HeaderSet := []

/-- Headers.get(key): looks up the lowercased key. -/
def HeaderSet.get (key : String) (h : HeaderSet) : Option String :=
  (h.find? (fun e => e.1 == key.toLower)).map (fun e => e.2)

/-- Headers.set(key, value): stores under the lowercased key, replacing any
previous entry for that key. -/
def HeaderSet.set (key val : String) (h : HeaderSet) : HeaderSet :=
  (key.toLower, val) :: h.filter (fun e => e.1 != key.toLower)

/-- `s.startsWith("/")`: the string begins with the single character `/`.
Modelled by a first-character test, which is what startsWith amounts to for
a one-character pattern. -/
def strStartsWithSlash (s : String) : Bool :=
  match s.data with
  | [] => false
  | c :: _ => c == '/'

/-- JavaScript truthiness of `Option.getOrUndefined` of an optional string:
`undefined` and the empty string are falsy, everything else truthy. -/
def strTruthy : Option String → Bool
  | none => false
  | some s => s != ""

instance {ε α : Type} [DecidableEq ε] [DecidableEq α] :
    DecidableEq (Except ε α)
  | Except.error a, Except.error b =>
      decidable_of_iff (a = b)
        ⟨fun h => by rw [h], fun h => by injection h⟩
  | Except.error _, Except.ok _ =>
      Decidable.isFalse (fun h => Except.noConfusion h)
  | Except.ok _, Except.error _ =>
      Decidable.isFalse (fun h => Except.noConfusion h)
  | Except.ok a, Except.ok b =>
      decidable_of_iff (a = b)
        ⟨fun h => by rw [h], fun h => by injection h⟩

/-- A declarative codec (effect Schema): a bidirectional partial
transformation between typed values and JSON, either direction may fail
with a parse-error message. -/
structure Codec where
  enc : Json → Except String Json
  dec : Json → Except String Json

/-- A request body payload (HttpBody): either the JSON serialization
produced by `parseBody` (HttpBody.json of an encoded value) or a raw
payload produced by a custom Input function (form data, text, binary...). -/
inductive BodyPayload where
  | json (j : Json) : BodyPayload
  | raw (p : Json) : BodyPayload
deriving DecidableEq

/-- A raw HTTP response (HttpClientResponse): status code, header set and
the result of reading the body as JSON (`response.json`, which can fail). -/
structure Response where
  status : Nat
  headers : HeaderSet
  json : Except String Json
deriving DecidableEq

/-- A resolved request URL of the legacy module: either a genuine string, or
a URL-maker function that was cast to `string` without being called
(RestApiClient.ts line 460, `spec.url as string` on a function value). -/
inductive UrlVal where
  | str (s : String) : UrlVal
  | rawFn : UrlVal
deriving DecidableEq

/-- An assembled HTTP request (HttpClientRequest after setBody/setHeaders),
parameterized by the type of its URL (`String` in the modular tree,
`UrlVal` in the legacy module). -/
structure Request (υ : Type) where
  method : String
  url : υ
  headers : HeaderSet
  body : Option BodyPayload
deriving DecidableEq

/-- Failures of the transport capability: a genuine transport/network error,
or (legacy `filterStatusOk` only) the generic non-2xx status failure. -/
inductive TransportError where
  | network : TransportError
  | statusNotOk : TransportError
deriving DecidableEq

/-- The typed error channel of one route invocation, a disjoint sum of the
error types contributed by the configured makers (the Effect error union). -/
inductive RunError where
  | headersFnError (e : Json) : RunError
  | bodyFnError (e : Json) : RunError
  | outputFnError (e : Json) : RunError
  | encodeError (m : String) : RunError
  | decodeError (m : String) : RunError
  | apiError (e : Json) : RunError
  | transportFail (e : TransportError) : RunError
deriving DecidableEq

/-- The success channel of one route invocation: the raw response when no
Output Maker is configured, a decoded/computed value otherwise. -/
inductive RunOutput where
  | raw (r : Response) : RunOutput
  | value (v : Json) : RunOutput
deriving DecidableEq

/-- Call-time parameters: each of `url`, `headers`, `body` may be present
or absent ("x" in params). -/
structure Params where
  url : Option Json := none
  headers : Option Json := none
  body : Option Json := none

/-- A transport capability: executes a request, yielding a response or a
transport-level failure. -/
def Transport (υ : Type) : Type := Request υ → Except TransportError Response

/-- The observable outcome of one invocation of a callable route function:
its result on the typed success/error channels, how many times each custom
maker function was invoked, whether the Error / Output makers were
consulted, and the request dispatched through the transport (if any). -/
structure RunResult (υ : Type) where
  result : Except RunError RunOutput
  urlFnCalls : Nat
  headersFnCalls : Nat
  bodyFnCalls : Nat
  errorConsulted : Bool
  outputConsulted : Bool
  request : Option (Request υ)
deriving DecidableEq

end RestApiClient

namespace Modular

open RestApiClient

/-- src/url.ts: URL makers, tagged (`@RestApiClient/Url/Value` / `Url/Fn`).
The custom function receives `params.url` or `undefined` (make.ts line 243),
hence takes an `Option`. -/
inductive UrlMaker where
  | value (url : String) : UrlMaker
  | fn (f : Option Json → String) : UrlMaker

/-- src/headers.ts: Headers makers, tagged (`Headers/Value` / `Headers/Fn`).
The custom function returns an Effect producing a header set, which may fail
with a typed error. -/
inductive HeadersMaker where
  | value (headers : HeaderSet) : HeadersMaker
  | fn (f : Json → Except Json HeaderSet) : HeadersMaker

/-- src/input.ts: Input makers, tagged (`Input/Value` / `Input/Schema` /
`Input/Fn`). -/
inductive InputMaker where
  | value (schema : Codec) (v : Json) : InputMaker
  | schema (schema : Codec) : InputMaker
  | fn (f : Json → Except Json BodyPayload) : InputMaker

/-- src/output.ts: Output makers, tagged (`Output/Schema` / `Output/Fn`). -/
inductive OutputMaker where
  | schema (schema : Codec) : OutputMaker
  | fn (f : Response → Except Json Json) : OutputMaker

/-- src/error.ts: Error makers, tagged (`Error/Schema` / `Error/Fn`); the
custom function is plain and synchronous. -/
inductive ErrorMaker where
  | schema (schema : Codec) : ErrorMaker
  | fn (f : Response → Json) : ErrorMaker

/-- src/route.ts: the Route descriptor of the modular tree. -/
structure Route where
  method : String
  url : UrlMaker
  headers : Option HeadersMaker := none
  body : Option InputMaker := none
  response : Option OutputMaker := none
  error : Option ErrorMaker := none

/-- make.ts getHeaders, step 1 (before Content-Type injection): no maker
gives `Headers.empty`; a Value maker is used verbatim; a Fn maker is invoked
with `params.headers` when that field is present and otherwise skipped in
favour of `Headers.empty`.  Also returns how often the custom function was
invoked. -/
def getHeadersBase (spec : Route) (params : Params) :
    Except RunError HeaderSet × Nat :=
  match spec.headers with
  | none => (Except.ok HeaderSet.empty, 0)
  | some (HeadersMaker.value h) => (Except.ok h, 0)
  | some (HeadersMaker.fn f) =>
      match params.headers with
      | some x => ((f x).mapError RunError.headersFnError, 1)
      | none => (Except.ok HeaderSet.empty, 0)

/-- make.ts getHeaders, step 2 (Content-Type auto-injection): if the
Content-Type header is falsy (absent or empty) and the Input Maker is
`Input/Schema` or `Input/Value`, set `Content-Type: application/json`. -/
def injectContentType (body : Option InputMaker) (h : HeaderSet) : HeaderSet :=
  let contentType := HeaderSet.get "Content-Type" h
  let jsonEncodable : Bool :=
    match body with
    | some (InputMaker.schema _) => true
    | some (InputMaker.value _ _) => true
    | _ => false
  if !(strTruthy contentType) && jsonEncodable then
    HeaderSet.set "Content-Type" "application/json" h
  else h

/-- make.ts getHeaders: step 1 then Content-Type injection. -/
def getHeaders (spec : Route) (params : Params) :
    Except RunError HeaderSet × Nat :=
  match getHeadersBase spec params with
  | (Except.ok h, n) => (Except.ok (injectContentType spec.body h), n)
  | (Except.error e, n) => (Except.error e, n)

/-- make.ts parseBody: encode the value through the schema and wrap the
encoded JSON into an HttpBody.json payload. -/
def parseBody (schema : Codec) (body : Json) : Except RunError BodyPayload :=
  ((schema.enc body).mapError RunError.encodeError).map BodyPayload.json

/-- make.ts getBody: a `Input/Value` maker always encodes its fixed
(schema, value) pair; otherwise, no maker or no call-time `body` field means
no body; a `Input/Schema` maker encodes the call-time body; a `Input/Fn`
maker is invoked with the call-time body.  Also counts custom-function
invocations. -/
def getBody (spec : Route) (params : Params) :
    Except RunError (Option BodyPayload) × Nat :=
  match spec.body with
  | some (InputMaker.value s v) => ((parseBody s v).map some, 0)
  | none => (Except.ok none, 0)
  | some (InputMaker.schema s) =>
      match params.body with
      | none => (Except.ok none, 0)
      | some b => ((parseBody s b).map some, 0)
  | some (InputMaker.fn f) =>
      match params.body with
      | none => (Except.ok none, 0)
      | some b => (((f b).mapError RunError.bodyFnError).map some, 1)

/-- make.ts parseResponse: read the response body as JSON, then decode it
through the schema. -/
def parseResponse (schema : Codec) (response : Response) :
    Except RunError Json :=
  match response.json with
  | Except.error m => Except.error (RunError.decodeError m)
  | Except.ok j => (schema.dec j).mapError RunError.decodeError

/-- make.ts getResponse: no Output Maker returns the raw response;
`Output/Schema` decodes the body; `Output/Fn` runs the custom function.
The Bool reports whether an Output Maker was consulted. -/
def getResponse (getter : Option OutputMaker) (response : Response) :
    Except RunError RunOutput × Bool :=
  match getter with
  | none => (Except.ok (RunOutput.raw response), false)
  | some (OutputMaker.schema s) =>
      ((parseResponse s response).map RunOutput.value, true)
  | some (OutputMaker.fn f) =>
      (((f response).mapError RunError.outputFnError).map RunOutput.value, true)

/-- make.ts getError: `Error/Schema` decodes the response body and fails
with the decoded value (or with the decode error if decoding fails);
`Error/Fn` fails with the function's value.  It always fails. -/
def getError (getter : ErrorMaker) (response : Response) : RunError :=
  match getter with
  | ErrorMaker.schema s =>
      match parseResponse s response with
      | Except.error e => e
      | Except.ok v => RunError.apiError v
  | ErrorMaker.fn f => RunError.apiError (f response)

/-- make.ts, the callable function returned by `make`: resolve the URL
(a Fn maker is always called, with `params.url` if present and `undefined`
otherwise), compute headers, compute the body, assemble and dispatch the
request, consult the Error Maker when one is configured and the status is
outside 200-299, and finally resolve the output. -/
def make (spec : Route) (transport : Transport String) (params : Params) :
    RunResult String :=
  let urlResolved : String × Nat :=
    match spec.url with
    | UrlMaker.value u => (u, 0)
    | UrlMaker.fn f => (f params.url, 1)
  match getHeaders spec params with
  | (Except.error e, hn) =>
      { result := Except.error e, urlFnCalls := urlResolved.2,
        headersFnCalls := hn, bodyFnCalls := 0,
        errorConsulted := false, outputConsulted := false, request := none }
  | (Except.ok headers, hn) =>
    match getBody spec params with
    | (Except.error e, bn) =>
        { result := Except.error e, urlFnCalls := urlResolved.2,
          headersFnCalls := hn, bodyFnCalls := bn,
          errorConsulted := false, outputConsulted := false, request := none }
    | (Except.ok body, bn) =>
      let request : Request String :=
        { method := spec.method, url := urlResolved.1,
          headers := headers, body := body }
      match transport request with
      | Except.error te =>
          { result := Except.error (RunError.transportFail te),
            urlFnCalls := urlResolved.2, headersFnCalls := hn,
            bodyFnCalls := bn, errorConsulted := false,
            outputConsulted := false, request := some request }
      | Except.ok response =>
        match spec.error,
            decide (response.status < 200 ∨ 300 ≤ response.status) with
        | some em, true =>
          { result := Except.error (getError em response),
            urlFnCalls := urlResolved.2, headersFnCalls := hn,
            bodyFnCalls := bn, errorConsulted := true,
            outputConsulted := false, request := some request }
        | _, _ =>
          let out := getResponse spec.response response
          { result := out.1, urlFnCalls := urlResolved.2,
            headersFnCalls := hn, bodyFnCalls := bn,
            errorConsulted := false, outputConsulted := out.2,
            request := some request }

end Modular

namespace Legacy

open RestApiClient

/-- RestApiClient.ts UrlFunction: a plain union, `string | ((arg) => string)`. -/
inductive UrlFunction where
  | str (u : String) : UrlFunction
  | fn (f : Json → String) : UrlFunction

/-- RestApiClient.ts HeadersFunction: `Headers.Headers | ((arg) => Effect<Headers>)
| undefined` (the `undefined` case is the absent route field). -/
inductive HeadersFunction where
  | value (headers : HeaderSet) : HeadersFunction
  | fn (f : Json → Except Json HeaderSet) : HeadersFunction

/-- RestApiClient.ts InputFunction: `StaticBody | Schema | ((arg) =>
Effect<HttpBody>)`; `staticBody` is the `{schema, data}` shape detected by
the engine via `"data" in spec.body`. -/
inductive InputFunction where
  | staticBody (schema : Codec) (data : Json) : InputFunction
  | schema (schema : Codec) : InputFunction
  | fn (f : Json → Except Json BodyPayload) : InputFunction

/-- RestApiClient.ts OutputFunction: `Schema | ((res) => Effect<any>)`. -/
inductive OutputFunction where
  | schema (schema : Codec) : OutputFunction
  | fn (f : Response → Except Json Json) : OutputFunction

/-- RestApiClient.ts ErrorFunction: `Schema | ((res) => any)`, the function
being plain and synchronous. -/
inductive ErrorFunction where
  | schema (schema : Codec) : ErrorFunction
  | fn (f : Response → Json) : ErrorFunction

/-- RestApiClient.ts Route: the legacy route descriptor, with the extra
`filterStatusOk` flag (absent defaults to false, and the engine only ever
tests its truthiness). -/
structure Route where
  method : String
  url : UrlFunction
  headers : Option HeadersFunction := none
  body : Option InputFunction := none
  response : Option OutputFunction := none
  error : Option ErrorFunction := none
  filterStatusOk : Bool := false

/-- The value produced by the legacy getHeaders before Content-Type
injection: either a genuine header set, or — when the Headers maker is a
function and no call-time `headers` field was supplied — the maker function
itself, cast to `Headers.Headers` (RestApiClient.ts line 385). -/
inductive HeadersVal where
  | hs (h : HeaderSet) : HeadersVal
  | rawFn : HeadersVal
deriving DecidableEq

/-- Property lookup on a HeadersVal, as `Headers.get` performs it: on a
function object cast to Headers the lookup finds nothing (a plain JS
function has no own header properties). -/
def HeadersVal.get (key : String) : HeadersVal → Option String
  | HeadersVal.hs h => HeaderSet.get key h
  | HeadersVal.rawFn => none

/-- `Headers.set` on a HeadersVal: `{...self, [key]: value}`; spreading a
function object contributes no enumerable entries, so the result is a header
set containing only the new entry. -/
def HeadersVal.set (key v : String) : HeadersVal → HeadersVal
  | HeadersVal.hs h => HeadersVal.hs (HeaderSet.set key v h)
  | HeadersVal.rawFn => HeadersVal.hs (HeaderSet.set key v HeaderSet.empty)

/-- The header record `HttpClientRequest.setHeaders` extracts from a
HeadersVal (via Headers.setAll / Headers.fromInput): a function object cast
to Headers has no enumerable entries, hence contributes the empty set. -/
def HeadersVal.toHeaderSet : HeadersVal → HeaderSet
  | HeadersVal.hs h => h
  | HeadersVal.rawFn => HeaderSet.empty

/-- RestApiClient.ts getHeaders, lines 378-385: no maker gives
`Headers.empty`; a function maker is invoked when the call-time `headers`
field is present; in every other case the configured value is returned via
the `spec.headers as Headers.Headers` cast (for a function maker without a
call-time `headers` field this cast returns the function itself). -/
def getHeadersBase (spec : Route) (params : Params) :
    Except RunError HeadersVal × Nat :=
  match spec.headers with
  | none => (Except.ok (HeadersVal.hs HeaderSet.empty), 0)
  | some (HeadersFunction.fn f) =>
      match params.headers with
      | some x =>
          (((f x).mapError RunError.headersFnError).map HeadersVal.hs, 1)
      | none => (Except.ok HeadersVal.rawFn, 0)
  | some (HeadersFunction.value h) => (Except.ok (HeadersVal.hs h), 0)

/-- RestApiClient.ts getHeaders, lines 386-395 (Content-Type injection): if
the Content-Type header is falsy and `Schema.isSchema(spec.body)` (true only
for the plain-Schema input variant — a StaticBody or a custom function is
not a schema), set `Content-Type: application/json`. -/
def injectContentType (body : Option InputFunction) (h : HeadersVal) :
    HeadersVal :=
  let contentType := h.get "Content-Type"
  let isSchema : Bool :=
    match body with
    | some (InputFunction.schema _) => true
    | _ => false
  if !(strTruthy contentType) && isSchema then
    h.set "Content-Type" "application/json"
  else h

/-- RestApiClient.ts getHeaders: base step then Content-Type injection. -/
def getHeaders (spec : Route) (params : Params) :
    Except RunError HeadersVal × Nat :=
  match getHeadersBase spec params with
  | (Except.ok h, n) => (Except.ok (injectContentType spec.body h), n)
  | (Except.error e, n) => (Except.error e, n)

/-- RestApiClient.ts parseBody (line 398): encode through the schema, then
wrap as an HttpBody.json payload. -/
def parseBody (schema : Codec) (body : Json) : Except RunError BodyPayload :=
  ((schema.enc body).mapError RunError.encodeError).map BodyPayload.json

/-- RestApiClient.ts getBody (lines 401-414): a StaticBody (`"data" in
spec.body`) always encodes its fixed pair; otherwise no maker or no
call-time `body` field means no body; a Schema maker encodes the call-time
body; a function maker is invoked with the call-time body. -/
def getBody (spec : Route) (params : Params) :
    Except RunError (Option BodyPayload) × Nat :=
  match spec.body with
  | some (InputFunction.staticBody s d) => ((parseBody s d).map some, 0)
  | none => (Except.ok none, 0)
  | some (InputFunction.schema s) =>
      match params.body with
      | none => (Except.ok none, 0)
      | some b => ((parseBody s b).map some, 0)
  | some (InputFunction.fn f) =>
      match params.body with
      | none => (Except.ok none, 0)
      | some b => (((f b).mapError RunError.bodyFnError).map some, 1)

/-- RestApiClient.ts parseResponse (lines 416-421). -/
def parseResponse (schema : Codec) (response : Response) :
    Except RunError Json :=
  match response.json with
  | Except.error m => Except.error (RunError.decodeError m)
  | Except.ok j => (schema.dec j).mapError RunError.decodeError

/-- RestApiClient.ts getResponse (lines 423-434). -/
def getResponse (getter : Option OutputFunction) (response : Response) :
    Except RunError RunOutput × Bool :=
  match getter with
  | none => (Except.ok (RunOutput.raw response), false)
  | some (OutputFunction.schema s) =>
      ((parseResponse s response).map RunOutput.value, true)
  | some (OutputFunction.fn f) =>
      (((f response).mapError RunError.outputFnError).map RunOutput.value,
        true)

/-- RestApiClient.ts getError (lines 442-453): always fails, with the
decoded error value, the decode error, or the custom function's value. -/
def getError (getter : ErrorFunction) (response : Response) : RunError :=
  match getter with
  | ErrorFunction.schema s =>
      match parseResponse s response with
      | Except.error e => e
      | Except.ok v => RunError.apiError v
  | ErrorFunction.fn f => RunError.apiError (f response)

/-- HttpClient.filterStatusOk: wraps a transport so that a response with
status outside 200-299 becomes a generic transport-level failure. -/
def filterStatusOkClient (t : Transport UrlVal) : Transport UrlVal :=
  fun req =>
    match t req with
    | Except.error e => Except.error e
    | Except.ok r =>
        if 200 ≤ r.status ∧ r.status < 300 then Except.ok r
        else Except.error TransportError.statusNotOk

/-- RestApiClient.ts make, the callable function (lines 455-481): resolve
the URL (a function maker is called only when the call-time `url` field is
present, otherwise the function is cast to a string), compute headers and
body, assemble the request, wrap the transport with filterStatusOk when the
flag is set, dispatch, consult the Error Maker when `!filterStatusOk` and
one is configured and the status is outside 200-299, then resolve output. -/
def make (spec : Route) (transport : Transport UrlVal) (params : Params) :
    RunResult UrlVal :=
  let urlResolved : UrlVal × Nat :=
    match spec.url with
    | UrlFunction.fn f =>
        match params.url with
        | some x => (UrlVal.str (f x), 1)
        | none => (UrlVal.rawFn, 0)
    | UrlFunction.str u => (UrlVal.str u, 0)
  match getHeaders spec params with
  | (Except.error e, hn) =>
      { result := Except.error e, urlFnCalls := urlResolved.2,
        headersFnCalls := hn, bodyFnCalls := 0,
        errorConsulted := false, outputConsulted := false, request := none }
  | (Except.ok headersVal, hn) =>
    match getBody spec params with
    | (Except.error e, bn) =>
        { result := Except.error e, urlFnCalls := urlResolved.2,
          headersFnCalls := hn, bodyFnCalls := bn,
          errorConsulted := false, outputConsulted := false, request := none }
    | (Except.ok body, bn) =>
      let request : Request UrlVal :=
        { method := spec.method, url := urlResolved.1,
          headers := headersVal.toHeaderSet, body := body }
      let client : Transport UrlVal :=
        if spec.filterStatusOk then filterStatusOkClient transport
        else transport
      match client request with
      | Except.error te =>
          { result := Except.error (RunError.transportFail te),
            urlFnCalls := urlResolved.2, headersFnCalls := hn,
            bodyFnCalls := bn, errorConsulted := false,
            outputConsulted := false, request := some request }
      | Except.ok response =>
        match (!spec.filterStatusOk : Bool), spec.error,
            decide (response.status < 200 ∨ 300 ≤ response.status) with
        | true, some em, true =>
          { result := Except.error (getError em response),
            urlFnCalls := urlResolved.2, headersFnCalls := hn,
            bodyFnCalls := bn, errorConsulted := true,
            outputConsulted := false, request := some request }
        | _, _, _ =>
          let out := getResponse spec.response response
          { result := out.1, urlFnCalls := urlResolved.2,
            headersFnCalls := hn, bodyFnCalls := bn,
            errorConsulted := false, outputConsulted := out.2,
            request := some request }

end Legacy

namespace RestApiClient

/-- JS object-spread field semantics for `{ base..., ...spec }`: a field
present in `spec` (even with value `undefined`, the inner `none`) wins;
an absent field falls back to the surrounding object's value. -/
def spreadField {α : Type} (base : Option α) : Option (Option α) → Option α
  | some v => v
  | none => base

end RestApiClient

namespace Modular

open RestApiClient

/-- url.ts MakerUrl, author-facing: a plain string or a function. -/
inductive MakerUrl where
  | str (u : String) : MakerUrl
  | fn (f : Option Json → String) : MakerUrl

/-- url.ts fromMakerUrl: a string becomes a Value, a function becomes Fn. -/
def fromMakerUrl : MakerUrl → UrlMaker
  | MakerUrl.str u => UrlMaker.value u
  | MakerUrl.fn f => UrlMaker.fn f

/-- headers.ts MakerHeaders, author-facing: a Headers.Headers instance or a
function. -/
inductive MakerHeaders where
  | headers (h : HeaderSet) : MakerHeaders
  | fn (f : Json → Except Json HeaderSet) : MakerHeaders

/-- headers.ts fromMakerHeaders: `Headers.isHeaders(x)` becomes a Value,
anything else Fn. -/
def fromMakerHeaders : MakerHeaders → HeadersMaker
  | MakerHeaders.headers h => HeadersMaker.value h
  | MakerHeaders.fn f => HeadersMaker.fn f

/-- input.ts MakerInput, author-facing: an `Input.Value` instance, a schema,
or a function. -/
inductive MakerInput where
  | value (schema : Codec) (v : Json) : MakerInput
  | schema (schema : Codec) : MakerInput
  | fn (f : Json → Except Json BodyPayload) : MakerInput

/-- input.ts fromMakerInput: a Value instance passes through, a schema
becomes the Schema variant, anything else Fn. -/
def fromMakerInput : MakerInput → InputMaker
  | MakerInput.value s v => InputMaker.value s v
  | MakerInput.schema s => InputMaker.schema s
  | MakerInput.fn f => InputMaker.fn f

/-- output.ts MakerOutput, author-facing: a schema or a function. -/
inductive MakerOutput where
  | schema (schema : Codec) : MakerOutput
  | fn (f : Response → Except Json Json) : MakerOutput

/-- output.ts fromMakerOutput. -/
def fromMakerOutput : MakerOutput → OutputMaker
  | MakerOutput.schema s => OutputMaker.schema s
  | MakerOutput.fn f => OutputMaker.fn f

/-- error.ts MakerError, author-facing: a schema or a plain function. -/
inductive MakerError where
  | schema (schema : Codec) : MakerError
  | fn (f : Response → Json) : MakerError

/-- error.ts fromMakerError. -/
def fromMakerError : MakerError → ErrorMaker
  | MakerError.schema s => ErrorMaker.schema s
  | MakerError.fn f => ErrorMaker.fn f

/-- make.ts MakerSpec: the author-facing route specification. -/
structure MakerSpec where
  method : String
  url : MakerUrl
  headers : Option MakerHeaders := none
  body : Option MakerInput := none
  response : Option MakerOutput := none
  error : Option MakerError := none

/-- make.ts toRoute: converts each present author-facing maker to its
internal tagged representation (`spec.x ? fromMakerX(spec.x) : undefined`). -/
def toRoute (spec : MakerSpec) : Route :=
  { method := spec.method,
    url := fromMakerUrl spec.url,
    headers := spec.headers.map fromMakerHeaders,
    body := spec.body.map fromMakerInput,
    response := spec.response.map fromMakerOutput,
    error := spec.error.map fromMakerError }

/-- client.ts Client: holds at most one default Headers Maker and one
default Error Maker (author-facing shapes). -/
structure Client where
  headers : Option MakerHeaders := none
  error : Option MakerError := none

/-- A per-route specification passed to a Client method: the `headers`,
`body`, `response` and `error` fields track JS field presence (outer
`Option`) separately from their value. -/
structure ClientMethodSpec where
  url : MakerUrl
  headers : Option (Option MakerHeaders) := none
  body : Option (Option MakerInput) := none
  response : Option (Option MakerOutput) := none
  error : Option (Option MakerError) := none

/-- client.ts Client.post: `Make.post({ headers: this.headers, error:
this.error, ...spec })` — the route built from the spread of the client's
defaults under the per-route specification, with method POST.  Returns the
Route the callable function is compiled from. -/
def Client.postRoute (c : Client) (spec : ClientMethodSpec) : Route :=
  toRoute
    { method := "POST", url := spec.url,
      headers := spreadField c.headers spec.headers,
      body := spreadField none spec.body,
      response := spreadField none spec.response,
      error := spreadField c.error spec.error }

/-- client.ts Client.get: as Client.post but with method GET and no body
field in the specification. -/
def Client.getRoute (c : Client) (spec : ClientMethodSpec) : Route :=
  toRoute
    { method := "GET", url := spec.url,
      headers := spreadField c.headers spec.headers,
      body := none,
      response := spreadField none spec.response,
      error := spreadField c.error spec.error }

/-- client.ts Config: `{ url, accessToken }` supplied through the
capability context. -/
structure Config where
  url : String
  accessToken : Option String
deriving DecidableEq

/-- HttpClientRequest.bearerToken: sets the `Authorization: Bearer <token>`
header (header names are stored lowercased). -/
def bearerToken (token : String) (req : Request String) : Request String :=
  { req with
      headers :=
        HeaderSet.set "Authorization" ("Bearer " ++ token) req.headers }

/-- client.ts layer, first mapRequestInput: if the request URL starts with
`/`, replace it by the plain concatenation of the configured base URL and
the original URL; otherwise leave the request unchanged. -/
def mapBaseUrl (config : Config) (req : Request String) : Request String :=
  if strStartsWithSlash req.url then { req with url := config.url ++ req.url }
  else req

/-- client.ts layer, second mapRequestInput: if the configured accessToken
is truthy (present and non-empty), add the bearer-authorization header;
otherwise leave the request unchanged. -/
def mapBearer (config : Config) (req : Request String) : Request String :=
  match config.accessToken with
  | none => req
  | some token => if token != "" then bearerToken token req else req

/-- client.ts layer (also RestApiClient.ts lines 1355-1373, identical): the
transport wrapped by the configuration middleware.  Piping two
mapRequestInput stages applies the second stage's transformation first, so
an incoming request passes through mapBearer and then mapBaseUrl before
reaching the underlying transport. -/
def layerTransform (config : Config) (req : Request String) :
    Request String :=
  mapBaseUrl config (mapBearer config req)

/-- The wrapped HttpClient provided by the layer. -/
def layer (config : Config) (base : Transport String) : Transport String :=
  fun req => base (layerTransform config req)

end Modular

namespace Legacy

open RestApiClient

/-- RestApiClient.ts Client: default headers and error for all routes
created from it (legacy author-facing shapes are the union types used by
the legacy Route directly). -/
structure Client where
  headers : Option HeadersFunction := none
  error : Option ErrorFunction := none

/-- A per-route specification passed to a legacy Client method, with JS
field presence tracked for the fields the spread can override. -/
structure ClientMethodSpec where
  url : UrlFunction
  headers : Option (Option HeadersFunction) := none
  body : Option (Option InputFunction) := none
  response : Option (Option OutputFunction) := none
  error : Option (Option ErrorFunction) := none
  filterStatusOk : Bool := false

/-- RestApiClient.ts Client.post (lines 1078-1094): `new Route({ headers:
this.headers, error: this.error, ...spec, method: "POST" })`. -/
def Client.postRoute (c : Client) (spec : ClientMethodSpec) : Route :=
  { method := "POST", url := spec.url,
    headers := spreadField c.headers spec.headers,
    body := spreadField none spec.body,
    response := spreadField none spec.response,
    error := spreadField c.error spec.error,
    filterStatusOk := spec.filterStatusOk }

/-- RestApiClient.ts Client.get (lines 998-1013): as Client.post with
method GET and no body field. -/
def Client.getRoute (c : Client) (spec : ClientMethodSpec) : Route :=
  { method := "GET", url := spec.url,
    headers := spreadField c.headers spec.headers,
    body := none,
    response := spreadField none spec.response,
    error := spreadField c.error spec.error,
    filterStatusOk := spec.filterStatusOk }

end Legacy

section Claims

open RestApiClient

/-- C9: in the modular tree, a route whose URL Maker is a Custom Function
calls the URL function exactly once per invocation, with the call-time
`url` field when present and with `undefined` (here: `none`) otherwise, and
the returned string is the URL of the dispatched request. -/
theorem C9_modular_url_fn_always_called (spec : Modular.Route)
    (f : Option Json → String) (transport : Transport String)
    (params : Params) (h : spec.url = Modular.UrlMaker.fn f) :
    (Modular.make spec transport params).urlFnCalls = 1 ∧
    ∀ req, (Modular.make spec transport params).request = some req →
      req.url = f params.url := by
  constructor
  · simp only [Modular.make, h]
    split <;> try rfl
    split <;> try rfl
    split <;> try rfl
    split <;> rfl
  · intro req hreq
    simp only [Modular.make, h] at hreq
    repeat' split at hreq
    all_goals first
      | exact Option.noConfusion hreq
      | (simp only [Option.some.injEq] at hreq; subst hreq; rfl)

/-- C10: in the legacy module, a route whose URL is a function, invoked
without a call-time `url` field, never calls the function; the function
value itself, cast to a string (`UrlVal.rawFn`), becomes the request URL. -/
theorem C10_legacy_url_fn_cast (spec : Legacy.Route) (f : Json → String)
    (transport : Transport UrlVal) (params : Params)
    (h : spec.url = Legacy.UrlFunction.fn f) (hu : params.url = none) :
    (Legacy.make spec transport params).urlFnCalls = 0 ∧
    ∀ req, (Legacy.make spec transport params).request = some req →
      req.url = UrlVal.rawFn := by
  constructor
  · simp only [Legacy.make, h, hu]
    repeat' split
    all_goals rfl
  · intro req hreq
    simp only [Legacy.make, h, hu] at hreq
    repeat' split at hreq
    all_goals first
      | exact Option.noConfusion hreq
      | (simp only [Option.some.injEq] at hreq; subst hreq; rfl)

/-- Looking up a header immediately after setting it finds the value that
was set (keys are compared lowercased). -/
theorem HeaderSet.get_set_self (key v : String) (h : HeaderSet) :
    HeaderSet.get key (HeaderSet.set key v h) = some v := by
  simp [HeaderSet.get, HeaderSet.set]

/-- C3: Content-Type auto-injection.  Whenever the obtained header set has
no Content-Type entry, the engine sets `Content-Type: application/json`
exactly when the Input Maker is JSON-encodable: in the modular tree the
Static Value and Declarative Codec variants both count, while in the legacy
module only the Declarative Codec (Schema) variant does — a legacy Static
Value body triggers no injection. -/
theorem C3_content_type_injection :
    (∀ (body : Option Modular.InputMaker) (h : HeaderSet),
       HeaderSet.get "Content-Type" h = none →
       (HeaderSet.get "Content-Type" (Modular.injectContentType body h) =
           some "application/json" ↔
         (∃ s v, body = some (Modular.InputMaker.value s v)) ∨
         (∃ s, body = some (Modular.InputMaker.schema s)))) ∧
    (∀ (body : Option Legacy.InputFunction) (hv : Legacy.HeadersVal),
       Legacy.HeadersVal.get "Content-Type" hv = none →
       (Legacy.HeadersVal.get "Content-Type"
           (Legacy.injectContentType body hv) = some "application/json" ↔
         ∃ s, body = some (Legacy.InputFunction.schema s))) := by
  constructor
  · intro body h h0
    rcases body with _ | mk
    · simp [Modular.injectContentType, h0]
    · rcases mk with ⟨s, v⟩ | s | f <;>
        simp [Modular.injectContentType, h0, strTruthy,
          HeaderSet.get_set_self]
  · intro body hv h0
    rcases hv with h | _
    · simp only [Legacy.HeadersVal.get] at h0
      rcases body with _ | mk
      · simp [Legacy.injectContentType, Legacy.HeadersVal.get, h0]
      · rcases mk with ⟨s, v⟩ | s | f <;>
          simp [Legacy.injectContentType, Legacy.HeadersVal.get,
            Legacy.HeadersVal.set, h0, strTruthy, HeaderSet.get_set_self]
    · rcases body with _ | mk
      · simp [Legacy.injectContentType, Legacy.HeadersVal.get]
      · rcases mk with ⟨s, v⟩ | s | f <;>
          simp [Legacy.injectContentType, Legacy.HeadersVal.get,
            Legacy.HeadersVal.set, strTruthy, HeaderSet.get_set_self]

/-- An identity codec used by concrete examples. -/
def idCodec : Codec := { enc := Except.ok, dec := Except.ok }

/-- A transport that always fails, for examples where only the
pre-dispatch behaviour matters. -/
def failTransport : Transport String := fun _ => Except.error TransportError.network

/-- The legacy-typed counterpart of failTransport. -/
def failTransportL : Transport UrlVal := fun _ => Except.error TransportError.network

/-- A sample dynamic URL function (modular shape). -/
def urlFn0 : Option Json → String
  | some (Json.str s) => "/todos/" ++ s
  | _ => "/todos"

/-- A sample dynamic URL function (legacy shape). -/
def urlFnL : Json → String
  | Json.str s => "/todos/" ++ s
  | _ => "/todos"

/-- A sample dynamic headers function. -/
def headersFn0 : Json → Except Json HeaderSet := fun _ => Except.ok [("x-api-key", "k")]

/-- C9 witness: a GET route with `urlFn0` and a `url` parameter calls the
URL function exactly once. -/
theorem C9_witness :
    (Modular.make { method := "GET", url := Modular.UrlMaker.fn urlFn0 }
        failTransport { url := some (Json.str "123") }).urlFnCalls = 1 :=
  (C9_modular_url_fn_always_called _ urlFn0 failTransport _ rfl).1

/-- C10 witness: the same route in the legacy module, invoked without a
`url` field, never calls the URL function. -/
theorem C10_witness :
    (Legacy.make { method := "GET", url := Legacy.UrlFunction.fn urlFnL }
        failTransportL {}).urlFnCalls = 0 :=
  (C10_legacy_url_fn_cast _ urlFnL failTransportL _ rfl rfl).1

/-- C3 witness: a modular Declarative Codec body and an empty header set
get `Content-Type: application/json` injected. -/
theorem C3_witness :
    HeaderSet.get "Content-Type"
      (Modular.injectContentType
        (some (Modular.InputMaker.schema idCodec)) []) =
      some "application/json" :=
  (C3_content_type_injection.1 _ [] rfl).mpr (Or.inr ⟨idCodec, rfl⟩)

/-- C4: a route whose Headers Maker is a Custom Function, invoked without a
call-time `headers` field, never invokes the function, and the header set
entering Content-Type injection (and, in the legacy module, the record the
request extracts from the cast function value) is empty. -/
theorem C4_dynamic_headers_skipped :
    (∀ (spec : Modular.Route) (f : Json → Except Json HeaderSet)
       (params : Params) (transport : Transport String),
       spec.headers = some (Modular.HeadersMaker.fn f) →
       params.headers = none →
       Modular.getHeadersBase spec params = (Except.ok HeaderSet.empty, 0) ∧
       (Modular.make spec transport params).headersFnCalls = 0) ∧
    (∀ (spec : Legacy.Route) (f : Json → Except Json HeaderSet)
       (params : Params) (transport : Transport UrlVal),
       spec.headers = some (Legacy.HeadersFunction.fn f) →
       params.headers = none →
       Legacy.getHeadersBase spec params =
         (Except.ok Legacy.HeadersVal.rawFn, 0) ∧
       Legacy.HeadersVal.toHeaderSet Legacy.HeadersVal.rawFn =
         HeaderSet.empty ∧
       (Legacy.make spec transport params).headersFnCalls = 0) := by
  constructor
  · intro spec f params transport h1 h2
    have hbase : Modular.getHeadersBase spec params =
        (Except.ok HeaderSet.empty, 0) := by
      simp [Modular.getHeadersBase, h1, h2]
    refine ⟨hbase, ?_⟩
    have hg : Modular.getHeaders spec params =
        (Except.ok (Modular.injectContentType spec.body HeaderSet.empty),
          0) := by
      simp [Modular.getHeaders, hbase]
    simp only [Modular.make, hg]
    repeat' split
    all_goals rfl
  · intro spec f params transport h1 h2
    have hbase : Legacy.getHeadersBase spec params =
        (Except.ok Legacy.HeadersVal.rawFn, 0) := by
      simp [Legacy.getHeadersBase, h1, h2]
    refine ⟨hbase, rfl, ?_⟩
    have hg : Legacy.getHeaders spec params =
        (Except.ok
          (Legacy.injectContentType spec.body Legacy.HeadersVal.rawFn),
          0) := by
      simp [Legacy.getHeaders, hbase]
    simp only [Legacy.make, hg]
    repeat' split
    all_goals rfl

/-- C4 witness: a modular route with a dynamic Headers Maker and no
call-time `headers` field starts from the empty header set. -/
theorem C4_witness :
    Modular.getHeadersBase
      { method := "GET", url := Modular.UrlMaker.value "/todos",
        headers := some (Modular.HeadersMaker.fn headersFn0) } {} =
      (Except.ok HeaderSet.empty, 0) :=
  (C4_dynamic_headers_skipped.1 _ headersFn0 {} failTransport rfl rfl).1

/-- C5: body-computation policy, in both modules.  A Static Value input is
always encoded from its fixed (codec, value) pair, whatever the call-time
parameters; with no Input Maker, or no call-time `body` field, no body is
produced (even for a configured Custom Function, which stays uninvoked);
a Declarative Codec maker encodes the call-time body through the codec into
a JSON payload; a Custom Function maker is invoked (once) with the
call-time body to produce the payload. -/
theorem C5_body_policy :
    (∀ (spec : Modular.Route) (params : Params),
      (∀ s v, spec.body = some (Modular.InputMaker.value s v) →
        Modular.getBody spec params =
          ((Modular.parseBody s v).map some, 0)) ∧
      (spec.body = none →
        Modular.getBody spec params = (Except.ok none, 0)) ∧
      (params.body = none →
        (∀ s, spec.body = some (Modular.InputMaker.schema s) →
          Modular.getBody spec params = (Except.ok none, 0)) ∧
        (∀ f, spec.body = some (Modular.InputMaker.fn f) →
          Modular.getBody spec params = (Except.ok none, 0))) ∧
      (∀ b, params.body = some b →
        (∀ s, spec.body = some (Modular.InputMaker.schema s) →
          Modular.getBody spec params =
            ((Modular.parseBody s b).map some, 0)) ∧
        (∀ f, spec.body = some (Modular.InputMaker.fn f) →
          Modular.getBody spec params =
            (((f b).mapError RunError.bodyFnError).map some, 1)))) ∧
    (∀ (spec : Legacy.Route) (params : Params),
      (∀ s d, spec.body = some (Legacy.InputFunction.staticBody s d) →
        Legacy.getBody spec params =
          ((Legacy.parseBody s d).map some, 0)) ∧
      (spec.body = none →
        Legacy.getBody spec params = (Except.ok none, 0)) ∧
      (params.body = none →
        (∀ s, spec.body = some (Legacy.InputFunction.schema s) →
          Legacy.getBody spec params = (Except.ok none, 0)) ∧
        (∀ f, spec.body = some (Legacy.InputFunction.fn f) →
          Legacy.getBody spec params = (Except.ok none, 0))) ∧
      (∀ b, params.body = some b →
        (∀ s, spec.body = some (Legacy.InputFunction.schema s) →
          Legacy.getBody spec params =
            ((Legacy.parseBody s b).map some, 0)) ∧
        (∀ f, spec.body = some (Legacy.InputFunction.fn f) →
          Legacy.getBody spec params =
            (((f b).mapError RunError.bodyFnError).map some, 1)))) := by
  constructor
  · intro spec params
    refine ⟨?_, ?_, ?_, ?_⟩
    · intro s v h; simp [Modular.getBody, h]
    · intro h; simp [Modular.getBody, h]
    · intro hp
      exact ⟨fun s h => by simp [Modular.getBody, h, hp],
             fun f h => by simp [Modular.getBody, h, hp]⟩
    · intro b hp
      exact ⟨fun s h => by simp [Modular.getBody, h, hp],
             fun f h => by simp [Modular.getBody, h, hp]⟩
  · intro spec params
    refine ⟨?_, ?_, ?_, ?_⟩
    · intro s d h; simp [Legacy.getBody, h]
    · intro h; simp [Legacy.getBody, h]
    · intro hp
      exact ⟨fun s h => by simp [Legacy.getBody, h, hp],
             fun f h => by simp [Legacy.getBody, h, hp]⟩
    · intro b hp
      exact ⟨fun s h => by simp [Legacy.getBody, h, hp],
             fun f h => by simp [Legacy.getBody, h, hp]⟩

/-- C5 witness: a Static Value input is encoded from its fixed pair even
when an unrelated call-time body is supplied. -/
theorem C5_witness :
    Modular.getBody
      { method := "PUT", url := Modular.UrlMaker.value "/todos",
        body := some (Modular.InputMaker.value idCodec (Json.str "fixed")) }
      { body := some (Json.str "ignored") } =
      ((Modular.parseBody idCodec (Json.str "fixed")).map some, 0) :=
  ((C5_body_policy.1 _ _).1 idCodec (Json.str "fixed") rfl)

/-- C6: for every Client and per-route specification, the route built by
the get/post builders takes each of the `headers` and `error` fields from
the per-route specification when that field is present there and from the
Client's defaults otherwise; overriding one field never affects the
fallback of the other (each field is resolved independently, in both the
modular tree and the legacy module). -/
theorem C6_client_defaults_override :
    (∀ (c : Modular.Client) (spec : Modular.ClientMethodSpec),
      (∀ v, spec.error = some v →
        (Modular.Client.postRoute c spec).error =
          v.map Modular.fromMakerError ∧
        (Modular.Client.getRoute c spec).error =
          v.map Modular.fromMakerError) ∧
      (spec.error = none →
        (Modular.Client.postRoute c spec).error =
          c.error.map Modular.fromMakerError ∧
        (Modular.Client.getRoute c spec).error =
          c.error.map Modular.fromMakerError) ∧
      (∀ v, spec.headers = some v →
        (Modular.Client.postRoute c spec).headers =
          v.map Modular.fromMakerHeaders ∧
        (Modular.Client.getRoute c spec).headers =
          v.map Modular.fromMakerHeaders) ∧
      (spec.headers = none →
        (Modular.Client.postRoute c spec).headers =
          c.headers.map Modular.fromMakerHeaders ∧
        (Modular.Client.getRoute c spec).headers =
          c.headers.map Modular.fromMakerHeaders)) ∧
    (∀ (c : Legacy.Client) (spec : Legacy.ClientMethodSpec),
      (∀ v, spec.error = some v →
        (Legacy.Client.postRoute c spec).error = v ∧
        (Legacy.Client.getRoute c spec).error = v) ∧
      (spec.error = none →
        (Legacy.Client.postRoute c spec).error = c.error ∧
        (Legacy.Client.getRoute c spec).error = c.error) ∧
      (∀ v, spec.headers = some v →
        (Legacy.Client.postRoute c spec).headers = v ∧
        (Legacy.Client.getRoute c spec).headers = v) ∧
      (spec.headers = none →
        (Legacy.Client.postRoute c spec).headers = c.headers ∧
        (Legacy.Client.getRoute c spec).headers = c.headers)) := by
  constructor
  · intro c spec
    refine ⟨fun v h => ?_, fun h => ?_, fun v h => ?_, fun h => ?_⟩ <;>
      simp [Modular.Client.postRoute, Modular.Client.getRoute,
        Modular.toRoute, spreadField, h]
  · intro c spec
    refine ⟨fun v h => ?_, fun h => ?_, fun v h => ?_, fun h => ?_⟩ <;>
      simp [Legacy.Client.postRoute, Legacy.Client.getRoute,
        spreadField, h]

/-- A sample custom error function. -/
def errFnC6 : Response → Json := fun r => Json.num r.status

/-- A sample Client with both defaults set. -/
def clientC6 : Modular.Client :=
  { headers := some (Modular.MakerHeaders.headers [("x-api-version", "v1")]),
    error := some (Modular.MakerError.schema idCodec) }

/-- A sample per-route specification overriding only the error field. -/
def specC6 : Modular.ClientMethodSpec :=
  { url := Modular.MakerUrl.str "/todos",
    error := some (some (Modular.MakerError.fn errFnC6)) }

/-- C6 witness: with defaults E0/H0 and a route overriding only `error`
with E1, the built route uses E1 for errors and H0 for headers. -/
theorem C6_witness :
    (Modular.Client.getRoute clientC6 specC6).error =
      some (Modular.ErrorMaker.fn errFnC6) ∧
    (Modular.Client.getRoute clientC6 specC6).headers =
      some (Modular.HeadersMaker.value [("x-api-version", "v1")]) :=
  ⟨((C6_client_defaults_override.1 clientC6 specC6).1 _ rfl).2,
   ((C6_client_defaults_override.1 clientC6 specC6).2.2.2 rfl).2⟩

/-- mapBearer never changes the request URL. -/
theorem mapBearer_url (c : Modular.Config) (r : Request String) :
    (Modular.mapBearer c r).url = r.url := by
  unfold Modular.mapBearer Modular.bearerToken
  split
  · rfl
  · split <;> rfl

/-- mapBearer never changes the request method. -/
theorem mapBearer_method (c : Modular.Config) (r : Request String) :
    (Modular.mapBearer c r).method = r.method := by
  unfold Modular.mapBearer Modular.bearerToken
  split
  · rfl
  · split <;> rfl

/-- mapBearer never changes the request body. -/
theorem mapBearer_body (c : Modular.Config) (r : Request String) :
    (Modular.mapBearer c r).body = r.body := by
  unfold Modular.mapBearer Modular.bearerToken
  split
  · rfl
  · split <;> rfl

/-- C7: the configuration middleware replaces a request URL beginning with
`/` by the plain concatenation of the configured base URL and the original
URL, leaves any other URL unchanged, and adds the
`Authorization: Bearer <accessToken>` header exactly when the configured
accessToken is present and non-empty, leaving the headers untouched
otherwise; method and body are never altered, and the wrapped transport
dispatches exactly the transformed request. -/
theorem C7_config_layer (config : Modular.Config) (req : Request String) :
    ((Modular.layerTransform config req).url =
      (if strStartsWithSlash req.url then config.url ++ req.url
       else req.url)) ∧
    (Modular.layerTransform config req).method = req.method ∧
    (Modular.layerTransform config req).body = req.body ∧
    (∀ token, config.accessToken = some token → token ≠ "" →
      (Modular.layerTransform config req).headers =
        HeaderSet.set "Authorization" ("Bearer " ++ token) req.headers) ∧
    (strTruthy config.accessToken = false →
      (Modular.layerTransform config req).headers = req.headers) ∧
    (∀ base : Transport String,
      Modular.layer config base req =
        base (Modular.layerTransform config req)) := by
  refine ⟨?_, ?_, ?_, ?_, ?_, fun base => rfl⟩
  · simp only [Modular.layerTransform, Modular.mapBaseUrl, mapBearer_url]
    split <;> simp [mapBearer_url]
  · simp only [Modular.layerTransform, Modular.mapBaseUrl]
    split <;> simp [mapBearer_method]
  · simp only [Modular.layerTransform, Modular.mapBaseUrl]
    split <;> simp [mapBearer_body]
  · intro token htok hne
    have hb : (Modular.mapBearer config req).headers =
        HeaderSet.set "Authorization" ("Bearer " ++ token) req.headers := by
      simp [Modular.mapBearer, htok, Modular.bearerToken, hne]
    simp only [Modular.layerTransform, Modular.mapBaseUrl]
    split <;> simp [hb]
  · intro hfalse
    have hb : Modular.mapBearer config req = req := by
      rcases htok : config.accessToken with _ | t
      · simp [Modular.mapBearer, htok]
      · simp only [strTruthy, htok] at hfalse
        simp only [bne_eq_false_iff_eq] at hfalse
        simp [Modular.mapBearer, htok, hfalse]
    simp only [Modular.layerTransform, Modular.mapBaseUrl, hb]
    split <;> rfl

/-- C7 witness: with base URL and a non-empty token, a root-relative
request gets both the concatenated URL and the bearer header. -/
theorem C7_witness :
    (Modular.layerTransform
      { url := "https://api.example.com", accessToken := some "tok" }
      { method := "GET", url := "/todos", headers := [], body := none }).url
      = "https://api.example.com/todos" ∧
    (Modular.layerTransform
      { url := "https://api.example.com", accessToken := some "tok" }
      { method := "GET", url := "/todos", headers := [], body := none
        }).headers =
      HeaderSet.set "Authorization" ("Bearer " ++ "tok") [] := by
  refine ⟨?_, ?_⟩
  · have h := (C7_config_layer
      { url := "https://api.example.com", accessToken := some "tok" }
      { method := "GET", url := "/todos", headers := [], body := none }).1
    rw [h]
    decide
  · exact (C7_config_layer _ _).2.2.2.1 "tok" rfl (by decide)

/-- C8: in the legacy module, a route with filterStatusOk set wraps the
transport so that any non-2xx response becomes the generic
transport-level failure, and the route's Error Maker is never consulted
on any invocation. -/
theorem C8_filter_status_ok (spec : Legacy.Route) (params : Params)
    (hf : spec.filterStatusOk = true) :
    (∀ transport : Transport UrlVal,
      (Legacy.make spec transport params).errorConsulted = false) ∧
    (∀ (transport : Transport UrlVal) (req : Request UrlVal)
        (resp : Response),
      transport req = Except.ok resp →
      (resp.status < 200 ∨ 300 ≤ resp.status) →
      Legacy.filterStatusOkClient transport req =
        Except.error TransportError.statusNotOk) ∧
    (∀ (resp : Response) hs hn b bn,
      Legacy.getHeaders spec params = (Except.ok hs, hn) →
      Legacy.getBody spec params = (Except.ok b, bn) →
      (resp.status < 200 ∨ 300 ≤ resp.status) →
      (Legacy.make spec (fun _ => Except.ok resp) params).result =
        Except.error (RunError.transportFail TransportError.statusNotOk)) := by
  refine ⟨?_, ?_, ?_⟩
  · intro transport
    simp only [Legacy.make, hf]
    repeat' split
    all_goals first | rfl | simp_all
  · intro transport req resp ht hout
    simp only [Legacy.filterStatusOkClient, ht]
    rw [if_neg]
    omega
  · intro resp hs hn b bn hh hb hout
    have hc : ∀ q : Request UrlVal,
        Legacy.filterStatusOkClient (fun _ => Except.ok resp) q =
          Except.error TransportError.statusNotOk := by
      intro q
      simp only [Legacy.filterStatusOkClient]
      rw [if_neg]
      omega
    simp only [Legacy.make, hf, hh, hb, if_true, hc]

/-- C8 witness: a filter-enabled route against a 404 response fails with
the generic status failure and never consults its Error Maker. -/
theorem C8_witness :
    (Legacy.make
      { method := "GET", url := Legacy.UrlFunction.str "/todos",
        error := some (Legacy.ErrorFunction.schema idCodec),
        filterStatusOk := true }
      (fun _ => Except.ok
        { status := 404, headers := [], json := Except.ok Json.null })
      {}).result =
      Except.error (RunError.transportFail TransportError.statusNotOk) :=
  (C8_filter_status_ok _ {} rfl).2.2
    { status := 404, headers := [], json := Except.ok Json.null }
    _ _ _ _ rfl rfl (by decide)

/-- Reduction helper: an if whose Bool condition is literally false. -/
theorem iteFalseBool {α : Sort _} (a b : α) : (if false = true then a else b) = b := rfl

/-- C1: when an Error Maker is configured (legacy: and filterStatusOk is
not true), the Error Maker is consulted exactly when the response status is
outside 200-299; when consulted the computation fails — with the
codec-decoded body for a Declarative Codec maker, or the value of the
custom error function applied to the raw response — and the Output Maker is
never invoked; on a 2xx status the Error Maker is never consulted. -/
theorem C1_error_maker_gating :
    (∀ (spec : Modular.Route) (params : Params) (em : Modular.ErrorMaker)
       (resp : Response) (hs : HeaderSet) (hn : Nat)
       (b : Option BodyPayload) (bn : Nat),
      spec.error = some em →
      Modular.getHeaders spec params = (Except.ok hs, hn) →
      Modular.getBody spec params = (Except.ok b, bn) →
      ((Modular.make spec (fun _ => Except.ok resp) params).errorConsulted =
        decide (resp.status < 200 ∨ 300 ≤ resp.status)) ∧
      ((resp.status < 200 ∨ 300 ≤ resp.status) →
        (Modular.make spec (fun _ => Except.ok resp) params).outputConsulted
            = false ∧
        (Modular.make spec (fun _ => Except.ok resp) params).result =
          Except.error (Modular.getError em resp) ∧
        (∀ s v, em = Modular.ErrorMaker.schema s →
          Modular.parseResponse s resp = Except.ok v →
          (Modular.make spec (fun _ => Except.ok resp) params).result =
            Except.error (RunError.apiError v)) ∧
        (∀ f, em = Modular.ErrorMaker.fn f →
          (Modular.make spec (fun _ => Except.ok resp) params).result =
            Except.error (RunError.apiError (f resp))))) ∧
    (∀ (spec : Legacy.Route) (params : Params) (em : Legacy.ErrorFunction)
       (resp : Response) (hs : Legacy.HeadersVal) (hn : Nat)
       (b : Option BodyPayload) (bn : Nat),
      spec.filterStatusOk = false →
      spec.error = some em →
      Legacy.getHeaders spec params = (Except.ok hs, hn) →
      Legacy.getBody spec params = (Except.ok b, bn) →
      ((Legacy.make spec (fun _ => Except.ok resp) params).errorConsulted =
        decide (resp.status < 200 ∨ 300 ≤ resp.status)) ∧
      ((resp.status < 200 ∨ 300 ≤ resp.status) →
        (Legacy.make spec (fun _ => Except.ok resp) params).outputConsulted
            = false ∧
        (Legacy.make spec (fun _ => Except.ok resp) params).result =
          Except.error (Legacy.getError em resp) ∧
        (∀ s v, em = Legacy.ErrorFunction.schema s →
          Legacy.parseResponse s resp = Except.ok v →
          (Legacy.make spec (fun _ => Except.ok resp) params).result =
            Except.error (RunError.apiError v)) ∧
        (∀ f, em = Legacy.ErrorFunction.fn f →
          (Legacy.make spec (fun _ => Except.ok resp) params).result =
            Except.error (RunError.apiError (f resp))))) := by
  constructor
  · intro spec params em resp hs hn b bn he hh hb
    refine ⟨?_, ?_⟩
    · cases hd : decide (resp.status < 200 ∨ 300 ≤ resp.status) <;>
        simp only [Modular.make, hh, hb, he, hd] <;>
        (repeat' split) <;> rfl
    · intro hst
      have hd : decide (resp.status < 200 ∨ 300 ≤ resp.status) = true := by
        simp [hst]
      refine ⟨?_, ?_, ?_, ?_⟩
      · simp only [Modular.make, hh, hb, he, hd]
        repeat' split
        all_goals rfl
      · simp only [Modular.make, hh, hb, he, hd]
        repeat' split
        all_goals rfl
      · intro s v hes hpr
        subst hes
        simp only [Modular.make, hh, hb, he, hd]
        repeat' split
        all_goals simp [Modular.getError, hpr]
      · intro f hef
        subst hef
        simp only [Modular.make, hh, hb, he, hd]
        repeat' split
        all_goals simp [Modular.getError]
  · intro spec params em resp hs hn b bn hf he hh hb
    refine ⟨?_, ?_⟩
    · cases hd : decide (resp.status < 200 ∨ 300 ≤ resp.status) <;>
        simp only [Legacy.make, hh, hb, he, hf, hd, Bool.not_false,
          iteFalseBool] <;>
        (repeat' split) <;> first | rfl | omega | simp_all | (simp_all; omega)
    · intro hst
      have hd : decide (resp.status < 200 ∨ 300 ≤ resp.status) = true := by
        simp [hst]
      refine ⟨?_, ?_, ?_, ?_⟩
      · simp only [Legacy.make, hh, hb, he, hf, hd, Bool.not_false,
          iteFalseBool]
        repeat' split
        all_goals first | rfl | simp_all
      · simp only [Legacy.make, hh, hb, he, hf, hd, Bool.not_false,
          iteFalseBool]
        repeat' split
        all_goals first | rfl | simp_all
      · intro s v hes hpr
        subst hes
        simp only [Legacy.make, hh, hb, he, hf, hd, Bool.not_false,
          iteFalseBool]
        repeat' split
        all_goals first | simp [Legacy.getError, hpr] | simp_all
      · intro f hef
        subst hef
        simp only [Legacy.make, hh, hb, he, hf, hd, Bool.not_false,
          iteFalseBool]
        repeat' split
        all_goals first | simp [Legacy.getError] | simp_all

/-- C1 witness: a modular route with a schema Error Maker against a 404
response with a decodable body fails with the decoded error value. -/
theorem C1_witness :
    (Modular.make
      { method := "GET", url := Modular.UrlMaker.value "/todos",
        response := some (Modular.OutputMaker.schema idCodec),
        error := some (Modular.ErrorMaker.schema idCodec) }
      (fun _ => Except.ok
        { status := 404, headers := [],
          json := Except.ok (Json.str "not found") })
      {}).result =
      Except.error (RunError.apiError (Json.str "not found")) :=
  ((C1_error_maker_gating.1
      { method := "GET", url := Modular.UrlMaker.value "/todos",
        response := some (Modular.OutputMaker.schema idCodec),
        error := some (Modular.ErrorMaker.schema idCodec) }
      {} (Modular.ErrorMaker.schema idCodec)
      { status := 404, headers := [],
        json := Except.ok (Json.str "not found") }
      HeaderSet.empty 0 none 0 rfl rfl rfl).2
    (by decide)).2.2.1 idCodec (Json.str "not found") rfl rfl

/-- C2 counterexample: the claim quantifies over every route with no Error
Maker, but a legacy route with filterStatusOk set and no Error Maker,
invoked against a status-500 response whose body matches the Output schema,
fails with the generic transport-level failure instead of succeeding with
the decoded output value. -/
theorem C2_counterexample :
    (Legacy.make
      { method := "GET", url := Legacy.UrlFunction.str "/x",
        response := some (Legacy.OutputFunction.schema idCodec),
        filterStatusOk := true }
      (fun _ => Except.ok
        { status := 500, headers := [],
          json := Except.ok (Json.str "payload") })
      {}).result =
      Except.error (RunError.transportFail TransportError.statusNotOk) ∧
    ¬ (Legacy.make
      { method := "GET", url := Legacy.UrlFunction.str "/x",
        response := some (Legacy.OutputFunction.schema idCodec),
        filterStatusOk := true }
      (fun _ => Except.ok
        { status := 500, headers := [],
          json := Except.ok (Json.str "payload") })
      {}).result =
      Except.ok (RunOutput.value (Json.str "payload")) := by
  decide

/-- C2 (amended): for every route with no Error Maker configured —
provided, in the legacy module, that filterStatusOk is not true — a
non-2xx status alone never causes failure: the Error Maker step is never
taken and the run result is exactly the response/output resolution, so a
status-500 response whose body matches the Output schema still yields the
decoded success value. -/
theorem C2_no_error_maker_status_ignored :
    (∀ (spec : Modular.Route) (params : Params) (resp : Response)
       (hs : HeaderSet) (hn : Nat) (b : Option BodyPayload) (bn : Nat),
      spec.error = none →
      Modular.getHeaders spec params = (Except.ok hs, hn) →
      Modular.getBody spec params = (Except.ok b, bn) →
      (Modular.make spec (fun _ => Except.ok resp) params).errorConsulted =
        false ∧
      (Modular.make spec (fun _ => Except.ok resp) params).result =
        (Modular.getResponse spec.response resp).1 ∧
      (∀ s v, spec.response = some (Modular.OutputMaker.schema s) →
        Modular.parseResponse s resp = Except.ok v →
        (Modular.make spec (fun _ => Except.ok resp) params).result =
          Except.ok (RunOutput.value v))) ∧
    (∀ (spec : Legacy.Route) (params : Params) (resp : Response)
       (hs : Legacy.HeadersVal) (hn : Nat) (b : Option BodyPayload)
       (bn : Nat),
      spec.filterStatusOk = false →
      spec.error = none →
      Legacy.getHeaders spec params = (Except.ok hs, hn) →
      Legacy.getBody spec params = (Except.ok b, bn) →
      (Legacy.make spec (fun _ => Except.ok resp) params).errorConsulted =
        false ∧
      (Legacy.make spec (fun _ => Except.ok resp) params).result =
        (Legacy.getResponse spec.response resp).1 ∧
      (∀ s v, spec.response = some (Legacy.OutputFunction.schema s) →
        Legacy.parseResponse s resp = Except.ok v →
        (Legacy.make spec (fun _ => Except.ok resp) params).result =
          Except.ok (RunOutput.value v))) := by
  constructor
  · intro spec params resp hs hn b bn he hh hb
    refine ⟨?_, ?_, ?_⟩
    · cases hd : decide (resp.status < 200 ∨ 300 ≤ resp.status) <;>
        simp only [Modular.make, hh, hb, he, hd] <;>
        (repeat' split) <;> first | rfl | simp_all
    · cases hd : decide (resp.status < 200 ∨ 300 ≤ resp.status) <;>
        simp only [Modular.make, hh, hb, he, hd] <;>
        (repeat' split) <;> first | rfl | simp_all
    · intro s v hos hpr
      cases hd : decide (resp.status < 200 ∨ 300 ≤ resp.status) <;>
        simp only [Modular.make, hh, hb, he, hd] <;>
        (repeat' split) <;>
        first
          | simp [Modular.getResponse, hos, hpr, Except.map]
          | simp_all
  · intro spec params resp hs hn b bn hf he hh hb
    refine ⟨?_, ?_, ?_⟩
    · cases hd : decide (resp.status < 200 ∨ 300 ≤ resp.status) <;>
        simp only [Legacy.make, hh, hb, he, hf, hd, Bool.not_false,
          iteFalseBool] <;>
        (repeat' split) <;> first | rfl | simp_all
    · cases hd : decide (resp.status < 200 ∨ 300 ≤ resp.status) <;>
        simp only [Legacy.make, hh, hb, he, hf, hd, Bool.not_false,
          iteFalseBool] <;>
        (repeat' split) <;> first | rfl | simp_all
    · intro s v hos hpr
      cases hd : decide (resp.status < 200 ∨ 300 ≤ resp.status) <;>
        simp only [Legacy.make, hh, hb, he, hf, hd, Bool.not_false,
          iteFalseBool] <;>
        (repeat' split) <;>
        first
          | simp [Legacy.getResponse, hos, hpr, Except.map]
          | simp_all

/-- C2 (amended) witness: a modular route with no Error Maker against a
status-500 response with a schema-conforming body succeeds with the
decoded value. -/
theorem C2_witness :
    (Modular.make
      { method := "GET", url := Modular.UrlMaker.value "/x",
        response := some (Modular.OutputMaker.schema idCodec) }
      (fun _ => Except.ok
        { status := 500, headers := [],
          json := Except.ok (Json.str "payload") })
      {}).result = Except.ok (RunOutput.value (Json.str "payload")) :=
  (C2_no_error_maker_status_ignored.1
      { method := "GET", url := Modular.UrlMaker.value "/x",
        response := some (Modular.OutputMaker.schema idCodec) }
      {}
      { status := 500, headers := [],
        json := Except.ok (Json.str "payload") }
      HeaderSet.empty 0 none 0 rfl rfl rfl).2.2
    idCodec (Json.str "payload") rfl rfl

end Claims
